import Mathlib

/-!
A shallow embedding of `pandocwatch.py`, a watcher that re-runs a pandoc
command whenever a watched file's modification time advances.

Modelling conventions:
* modification times (`st_mtime`) are modelled as integers: the program
  only ever compares them with `>`;
* `os.listdir(os.getcwd())` is modelled as an explicit listing
  (`List String`) and `os.stat(path).st_mtime` as an oracle
  `String → Int`; where a raised `OSError` matters the oracle is
  `String → Except Nat Int`, the error carrying an errno;
* printing is modelled by accumulating the printed lines in a list;
* `subprocess.check_output(cmd, stderr=subprocess.STDOUT, shell=True)`
  is modelled as an oracle `String → Except String String`: `ok` carries
  the combined output on exit status 0, `error` carries the combined
  output attached to the raised `CalledProcessError`;
* Python's bare `exit()` raises `SystemExit(None)`, which terminates the
  interpreter with process exit status 0; the exits in `setup_config`
  and `main` are modelled with `Except ExitInfo`, recording the lines
  printed on the way out and that exit status.
-/

namespace PandocWatch

/-- A snapshot entry: a directory entry's name paired with its
modification time, i.e. the pair `(path, os.stat(path).st_mtime)`
appended by `Configuration.watched_elements`. -/
abbrev Entry := String × Int

/-- Python's `path.endswith(extension)`: is `e` a (case-sensitive)
suffix of `p`?  Stated on the character lists, which is where Python's
`str.endswith` compares; extensionally the same test as
`String.endsWith`. -/
def endswith (p e : String) : Bool :=
  e.data.isSuffixOf p.data

/-- `Configuration.watched_elements` (pandocwatch.py lines 64-75) with an
infallible `os.stat`.  For each `path` of the listing: if `path`
ends with some excluded extension (`path.endswith(extension)`), or the
name is in `excluded_folders`, the entry is skipped; otherwise
`(path, os.stat(path).st_mtime)` is recorded. -/
def watched_elements (exts : List String) (folders : Finset String)
    (stat : String → Int) : List String → List Entry
  | [] => []
  | p :: rest =>
    if exts.any fun e => endswith p e then
      watched_elements exts folders stat rest
    else if p ∈ folders then
      watched_elements exts folders stat rest
    else
      (p, stat p) :: watched_elements exts folders stat rest

/-- `Configuration.watched_elements` with a fallible `os.stat`.  The
Python body has no try/except, so an `OSError` raised by `os.stat`
propagates out of the loop at once: no later entry is visited and no
list is returned. -/
def watched_elements_err (exts : List String) (folders : Finset String)
    (stat : String → Except Nat Int) : List String → Except Nat (List Entry)
  | [] => Except.ok []
  | p :: rest =>
    if exts.any fun e => endswith p e then
      watched_elements_err exts folders stat rest
    else if p ∈ folders then
      watched_elements_err exts folders stat rest
    else
      match stat p with
      | Except.error e => Except.error e
      | Except.ok t =>
        match watched_elements_err exts folders stat rest with
        | Except.error e => Except.error e
        | Except.ok l => Except.ok ((p, t) :: l)

/-- `recompile` (lines 78-98), as the list of lines it prints.  The
timestamp interpolated into the first banner is ambient real time and is
elided.  `subprocess.check_output` succeeding prints `No error found`;
a `CalledProcessError` is caught and its combined output printed after
`Error:` — the exception never escapes `recompile`. -/
def recompile (command : String) (run : String → Except String String) :
    List String :=
  ["Updating the output at", "executing command : " ++ command] ++
    match run command with
    | Except.ok _ => ["No error found"]
    | Except.error out => ["Error:\n" ++ out]

/-- The test applied by the inner loop of `ChangeHandler.on_modified`
(lines 108-117) to an entry `p` of the fresh snapshot: some entry of the
held snapshot has the same name and a strictly smaller time
(`path == bpath` and `m_time > bm_time`).  The inner loop only breaks
when it fires, so a name-equal pair that has not advanced does not stop
the inner scan — exactly `List.any`. -/
def qualifies (old : List Entry) (p : Entry) : Bool :=
  old.any fun b => p.1 == b.1 && decide (b.2 < p.2)

/-- The observable outcome of one `on_modified` callback: the lines it
printed, how many times it called `recompile`, and the value of
`config.dir_content_and_time` when it returned. -/
structure HandlerResult where
  prints : List String
  recompiles : Nat
  held : List Entry
deriving DecidableEq

/-- `ChangeHandler.on_modified` (lines 104-119).  The outer loop walks
the fresh snapshot `new` in order and stops at the first entry for which
the inner loop fires (`found` plus the two `break`s); that is
`new.find? (qualifies old)`.  On a hit it prints the change banner,
replaces the held snapshot with the whole fresh snapshot, calls
`recompile` once and prints the closing banner; otherwise it does
nothing and the held snapshot is retained. -/
def on_modified (old new : List Entry) (command : String)
    (run : String → Except String String) : HandlerResult :=
  match new.find? (qualifies old) with
  | some p =>
    ⟨["File " ++ p.1 ++ " has changed. Recompiling."] ++
        recompile command run ++ ["Recompilation done"],
      1, new⟩
  | none => ⟨[], 0, old⟩

/-- A sequence of notification callbacks: for each `stat` oracle in turn
(one per raw filesystem notification), `on_modified` is run on a fresh
`watched_elements` snapshot, threading the held snapshot; returns the
total number of `recompile` calls and the final held snapshot. -/
def process_events (exts : List String) (folders : Finset String)
    (listing : List String) (command : String)
    (run : String → Except String String) :
    List (String → Int) → List Entry → Nat × List Entry
  | [], held => (0, held)
  | stat :: rest, held =>
    let r := on_modified held (watched_elements exts folders stat listing)
      command run
    let next := process_events exts folders listing command run rest r.held
    (r.recompiles + next.1, next.2)

/-- Line 156-157 of `setup_config`: the tokens of the exclusion list
that start with `"."`. -/
def excluded_file_extensions_of (toks : List String) : List String :=
  toks.filter fun v => v.startsWith "."

/-- Lines 158-160 of `setup_config`: the symmetric difference of
`set(exclusions)` and `set(excluded_file_extensions)` (Python sets, so
order and multiplicity are dropped). -/
def excluded_folders_of (toks : List String) : Finset String :=
  (toks.toFinset \ (excluded_file_extensions_of toks).toFinset) ∪
    ((excluded_file_extensions_of toks).toFinset \ toks.toFinset)

/-- The fields of `Configuration` that `setup_config` fills in (the live
snapshot `dir_content_and_time` is threaded separately). -/
structure Config where
  command : String
  excluded_file_extensions : List String
  excluded_folders : Finset String
deriving DecidableEq

/-- An early process termination: the lines printed on the way out and
the process exit status.  Python's bare `exit()` raises
`SystemExit(None)` and the interpreter exits with status 0. -/
structure ExitInfo where
  prints : List String
  exitStatus : Nat
deriving DecidableEq

/-- `setup_config` (lines 148-169).  `exclusionsArg` is the value of
`--exclude` (default `".pdf,.tex,doc,bin,common"`), split on commas;
`rest` is the list of unrecognized arguments (`args[1]`), joined by
single spaces.  When the joined pandoc options are empty it prints the
complaint and the argparse help text (`helpText`) and exits — with
status 0, since `exit()` is called bare. -/
def setup_config (helpText : String) (exclusionsArg : String)
    (rest : List String) : Except ExitInfo Config :=
  let exclusions := exclusionsArg.splitOn ","
  let exts := excluded_file_extensions_of exclusions
  let folders := excluded_folders_of exclusions
  let pandoc_options := String.intercalate " " rest
  if pandoc_options = "" then
    Except.error ⟨["pandoc options must be provided!\n", helpText], 0⟩
  else
    Except.ok ⟨"pandoc " ++ pandoc_options, exts, folders⟩

/-- The state `main` reaches just before printing
`Starting pandoc watcher ...` and scheduling the observer: the filled
configuration and the initial snapshot.  Reaching it is what
"filesystem-watch setup" means in this model. -/
structure Started where
  config : Config
  snapshot : List Entry
deriving DecidableEq

/-- The startup path of `main` (lines 172-181): the `which("pandoc")`
pre-flight check (modelled by `pandocFound`), then `setup_config`, then
the initial `watched_elements` snapshot.  Either exit (`pandoc` missing,
or empty pandoc options) happens before any snapshot is taken or any
observer is scheduled. -/
def main_model (pandocFound : Bool) (helpText exclusionsArg : String)
    (rest : List String) (listing : List String) (stat : String → Int) :
    Except ExitInfo Started :=
  if pandocFound then
    match setup_config helpText exclusionsArg rest with
    | Except.error e => Except.error e
    | Except.ok cfg =>
      Except.ok ⟨cfg,
        watched_elements cfg.excluded_file_extensions cfg.excluded_folders
          stat listing⟩
  else
    Except.error ⟨["pandoc executable must be in the path!"], 0⟩

/-- The claim wording of C5 at one program run: the run terminates the
process with a non-zero exit status.  (Spec-side predicate, used only to
refute that wording.) -/
def exitsNonzero (r : Except ExitInfo Started) : Bool :=
  match r with
  | Except.error e => e.exitStatus != 0
  | Except.ok _ => false

/-! ### Helper lemmas -/

theorem qualifies_iff {old : List Entry} {p : Entry} :
    qualifies old p = true ↔ ∃ b ∈ old, p.1 = b.1 ∧ b.2 < p.2 := by
  simp [qualifies, List.any_eq_true]

theorem mem_watched_elements {exts : List String} {folders : Finset String}
    {stat : String → Int} {listing : List String} {p : String} {t : Int} :
    (p, t) ∈ watched_elements exts folders stat listing ↔
      p ∈ listing ∧ (exts.any fun e => endswith p e) = false ∧
        p ∉ folders ∧ t = stat p := by
  induction listing with
  | nil => simp [watched_elements]
  | cons q rest ih =>
    simp only [watched_elements]
    split
    case isTrue hq =>
      rw [ih, List.mem_cons]
      constructor
      · exact fun ⟨h1, h2, h3, h4⟩ => ⟨Or.inr h1, h2, h3, h4⟩
      · rintro ⟨rfl | h1, h2, h3, h4⟩
        · simp [h2] at hq
        · exact ⟨h1, h2, h3, h4⟩
    case isFalse hq =>
      split
      case isTrue hf =>
        rw [ih, List.mem_cons]
        constructor
        · exact fun ⟨h1, h2, h3, h4⟩ => ⟨Or.inr h1, h2, h3, h4⟩
        · rintro ⟨rfl | h1, h2, h3, h4⟩
          · exact absurd hf h3
          · exact ⟨h1, h2, h3, h4⟩
      case isFalse hf =>
        rw [List.mem_cons, ih, List.mem_cons, Prod.mk.injEq]
        constructor
        · rintro (⟨rfl, rfl⟩ | ⟨h1, h2, h3, h4⟩)
          · exact ⟨Or.inl rfl, by simpa using hq, hf, rfl⟩
          · exact ⟨Or.inr h1, h2, h3, h4⟩
        · rintro ⟨rfl | h1, h2, h3, h4⟩
          · exact Or.inl ⟨rfl, h4⟩
          · exact Or.inr ⟨h1, h2, h3, h4⟩

theorem watched_elements_congr {exts : List String} {folders : Finset String}
    {stat stat2 : String → Int} :
    ∀ {listing : List String},
      (∀ p ∈ listing, (exts.any fun e => endswith p e) = false →
          p ∉ folders → stat p = stat2 p) →
      watched_elements exts folders stat listing =
        watched_elements exts folders stat2 listing
  | [], _ => rfl
  | q :: rest, h => by
    have hrest := fun p hp => h p (List.mem_cons_of_mem _ hp)
    simp only [watched_elements]
    split
    · exact watched_elements_congr hrest
    · split
      case isTrue => exact watched_elements_congr hrest
      case isFalse hq hf =>
        rw [watched_elements_congr hrest,
          h q (List.mem_cons_self _ _) (by simpa using hq) hf]

theorem find?_qualifies_eq_none {old new : List Entry}
    (h : ∀ p ∈ new, ∀ b ∈ old, p.1 = b.1 → p.2 ≤ b.2) :
    new.find? (qualifies old) = none := by
  rw [List.find?_eq_none]
  intro p hp hq
  obtain ⟨b, hb, he, hlt⟩ := qualifies_iff.mp hq
  exact absurd (h p hp b hb he) (not_le.mpr hlt)

theorem on_modified_none {old new : List Entry} {command : String}
    {run : String → Except String String}
    (h : ∀ p ∈ new, ∀ b ∈ old, p.1 = b.1 → p.2 ≤ b.2) :
    on_modified old new command run = ⟨[], 0, old⟩ := by
  simp only [on_modified, find?_qualifies_eq_none h]

theorem on_modified_some {old new : List Entry} {command : String}
    {run : String → Except String String}
    (h : ∃ p ∈ new, ∃ b ∈ old, p.1 = b.1 ∧ b.2 < p.2) :
    ∃ q, new.find? (qualifies old) = some q ∧
      on_modified old new command run =
        ⟨["File " ++ q.1 ++ " has changed. Recompiling."] ++
          recompile command run ++ ["Recompilation done"], 1, new⟩ := by
  obtain ⟨p, hp, b, hb, he, hlt⟩ := h
  have hs : (new.find? (qualifies old)).isSome := by
    rw [List.find?_isSome]
    exact ⟨p, hp, qualifies_iff.mpr ⟨b, hb, he, hlt⟩⟩
  obtain ⟨q, hq⟩ := Option.isSome_iff_exists.mp hs
  exact ⟨q, hq, by simp only [on_modified, hq]⟩

theorem watched_elements_snd {exts : List String} {folders : Finset String}
    {stat : String → Int} {listing : List String} {p : Entry}
    (hp : p ∈ watched_elements exts folders stat listing) : p.2 = stat p.1 :=
  (mem_watched_elements.mp hp).2.2.2

theorem on_modified_self_eq {exts : List String} {folders : Finset String}
    {stat : String → Int} {listing : List String} {command : String}
    {run : String → Except String String} :
    on_modified (watched_elements exts folders stat listing)
        (watched_elements exts folders stat listing) command run =
      ⟨[], 0, watched_elements exts folders stat listing⟩ := by
  apply on_modified_none
  intro p hp b hb he
  rw [watched_elements_snd hp, watched_elements_snd hb, he]

theorem mem_excluded_folders_of {toks : List String} {v : String} :
    v ∈ excluded_folders_of toks ↔
      v ∈ toks ∧ v.startsWith "." = false := by
  simp only [excluded_folders_of, excluded_file_extensions_of,
    Finset.mem_union, Finset.mem_sdiff, List.mem_toFinset, List.mem_filter,
    Bool.not_eq_true, not_and]
  constructor
  · rintro (⟨h1, h2⟩ | ⟨⟨h1, h2⟩, h3⟩)
    · exact ⟨h1, h2 h1⟩
    · exact absurd h1 h3
  · rintro ⟨h1, h2⟩
    exact Or.inl ⟨h1, fun _ => h2⟩

theorem watched_elements_err_error {exts : List String}
    {folders : Finset String} {stat : String → Except Nat Int} :
    ∀ {listing : List String},
      (∃ p ∈ listing, (exts.any fun e => endswith p e) = false ∧
          p ∉ folders ∧ ∃ err, stat p = Except.error err) →
      (watched_elements_err exts folders stat listing).toOption = none
  | [], h => by simp at h
  | q :: rest, h => by
    obtain ⟨p, hp, hna, hnf, err, herr⟩ := h
    rcases List.mem_cons.mp hp with rfl | hp
    · simp only [watched_elements_err, hna, hnf, herr]
      simp [Except.toOption]
    · have hrest := watched_elements_err_error ⟨p, hp, hna, hnf, err, herr⟩
      simp only [watched_elements_err]
      split
      · exact hrest
      · split
        · exact hrest
        · cases hsq : stat q with
          | error e => simp [Except.toOption]
          | ok t =>
            cases hres : watched_elements_err exts folders stat rest with
            | error e => simp [Except.toOption]
            | ok l =>
              rw [hres] at hrest
              simp [Except.toOption] at hrest

theorem process_events_no_change {exts : List String}
    {folders : Finset String} {listing : List String} {command : String}
    {run : String → Except String String} {stat0 : String → Int} :
    ∀ {stats : List (String → Int)},
      (∀ stat ∈ stats, ∀ p ∈ listing,
        (exts.any fun e => endswith p e) = false → p ∉ folders →
        stat p = stat0 p) →
      process_events exts folders listing command run stats
          (watched_elements exts folders stat0 listing) =
        (0, watched_elements exts folders stat0 listing)
  | [], _ => rfl
  | st :: rest, h => by
    have hw : watched_elements exts folders st listing =
        watched_elements exts folders stat0 listing :=
      watched_elements_congr fun p hp hna hnf =>
        h st (List.mem_cons_self _ _) p hp hna hnf
    have ih := @process_events_no_change exts folders listing command run
      stat0 rest (fun stat hs => h stat (List.mem_cons_of_mem _ hs))
    simp only [process_events, hw, on_modified_self_eq, ih]

/-! ### Claim theorems -/

/-- C1: if at least one entry present in both snapshots (matched by
name) has a strictly greater timestamp in the fresh snapshot, then
`on_modified` invokes the external command exactly once — even when
several entries advanced simultaneously — and replaces the held
snapshot with the fresh snapshot. -/
theorem C1_single_recompilation (old new : List Entry) (command : String)
    (run : String → Except String String)
    (h : ∃ p ∈ new, ∃ b ∈ old, p.1 = b.1 ∧ b.2 < p.2) :
    (on_modified old new command run).recompiles = 1 ∧
      (on_modified old new command run).held = new := by
  obtain ⟨q, _, heq⟩ := on_modified_some h
  rw [heq]
  exact ⟨rfl, rfl⟩

/-- Witness for C1: two entries advance at once, one recompilation. -/
theorem C1_witness :
    (on_modified [("a.md", 100), ("b.md", 100)]
        [("a.md", 200), ("b.md", 300)] "pandoc x"
        (fun _ => Except.ok "")).recompiles = 1 ∧
      (on_modified [("a.md", 100), ("b.md", 100)]
        [("a.md", 200), ("b.md", 300)] "pandoc x"
        (fun _ => Except.ok "")).held = [("a.md", 200), ("b.md", 300)] :=
  C1_single_recompilation [("a.md", 100), ("b.md", 100)]
    [("a.md", 200), ("b.md", 300)] "pandoc x"
    (fun _ => Except.ok "") (by decide)

/-- C2: if no entry present in both snapshots (matched by name) has a
strictly greater timestamp — including when the only difference is a
newly created file absent from the previous snapshot — `on_modified`
triggers no recompilation and keeps the old held snapshot. -/
theorem C2_no_recompilation (old new : List Entry) (command : String)
    (run : String → Except String String)
    (h : ∀ p ∈ new, ∀ b ∈ old, p.1 = b.1 → p.2 ≤ b.2) :
    (on_modified old new command run).recompiles = 0 ∧
      (on_modified old new command run).held = old := by
  rw [on_modified_none h]
  exact ⟨rfl, rfl⟩

/-- Witness for C2: a brand-new file `c.md` appears, nothing fires. -/
theorem C2_witness :
    (on_modified [("a.md", 100)] [("a.md", 100), ("c.md", 500)] "pandoc x"
        (fun _ => Except.ok "")).recompiles = 0 ∧
      (on_modified [("a.md", 100)] [("a.md", 100), ("c.md", 500)] "pandoc x"
        (fun _ => Except.ok "")).held = [("a.md", 100)] :=
  C2_no_recompilation [("a.md", 100)] [("a.md", 100), ("c.md", 500)]
    "pandoc x" (fun _ => Except.ok "") (by decide)

/-- C3: for every comma-separated exclusion string, `setup_config` puts
exactly the tokens that start with `"."` into the excluded-extension
list and all remaining tokens into the excluded-name set; the two are
disjoint and their union, as sets, is the set of input tokens. -/
theorem C3_exclusion_partition (s : String) :
    (∀ v, v ∈ excluded_file_extensions_of (s.splitOn ",") ↔
        v ∈ s.splitOn "," ∧ v.startsWith "." = true) ∧
    (∀ v, v ∈ excluded_folders_of (s.splitOn ",") ↔
        v ∈ s.splitOn "," ∧ v.startsWith "." = false) ∧
    Disjoint (excluded_file_extensions_of (s.splitOn ",")).toFinset
      (excluded_folders_of (s.splitOn ",")) ∧
    (excluded_file_extensions_of (s.splitOn ",")).toFinset ∪
        excluded_folders_of (s.splitOn ",") = (s.splitOn ",").toFinset := by
  refine ⟨fun v => ?_, fun v => mem_excluded_folders_of, ?_, ?_⟩
  · simp [excluded_file_extensions_of, List.mem_filter]
  · refine Finset.disjoint_left.mpr fun a ha hb => ?_
    rw [List.mem_toFinset, excluded_file_extensions_of, List.mem_filter]
      at ha
    have h2 := (mem_excluded_folders_of.mp hb).2
    rw [ha.2] at h2
    simp at h2
  · ext a
    rw [Finset.mem_union, List.mem_toFinset, List.mem_toFinset,
      mem_excluded_folders_of, excluded_file_extensions_of, List.mem_filter]
    cases hsw : a.startsWith "." with
    | true => simp [hsw]
    | false => simp [hsw]

/-- Witness for C3: classification of one extension and one name token
from a concrete exclusion string. -/
theorem C3_witness :
    (".pdf" ∈ excluded_file_extensions_of (".pdf,doc".splitOn ",") ↔
      ".pdf" ∈ ".pdf,doc".splitOn "," ∧ ".pdf".startsWith "." = true) ∧
    ("doc" ∈ excluded_folders_of (".pdf,doc".splitOn ",") ↔
      "doc" ∈ ".pdf,doc".splitOn "," ∧ "doc".startsWith "." = false) :=
  ⟨(C3_exclusion_partition ".pdf,doc").1 ".pdf",
    (C3_exclusion_partition ".pdf,doc").2.1 "doc"⟩

/-- C4 counterexample: extension matching is case-SENSITIVE in
`watched_elements` — no lower-casing happens.  With excluded extension
`".pdf"` the entry `"A.PDF"` (differing only by letter case) is NOT
skipped: it is recorded in the snapshot, refuting the claim that such an
entry is still excluded. -/
theorem C4_counterexample :
    watched_elements [".pdf"] ∅ (fun _ => 5) ["A.PDF"] = [("A.PDF", 5)] := by
  decide

/-- C4 (amended): `watched_elements` records `(name, stat name)` exactly
for the listed entries whose name does not case-sensitively end with any
excluded-extension token and is not an excluded name; there is no
lower-casing and no case-insensitive matching. -/
theorem C4_enumerator_decision (exts : List String)
    (folders : Finset String) (stat : String → Int) (listing : List String)
    (p : String) (t : Int) :
    (p, t) ∈ watched_elements exts folders stat listing ↔
      p ∈ listing ∧ (exts.any fun e => endswith p e) = false ∧
        p ∉ folders ∧ t = stat p :=
  mem_watched_elements

/-- Witness for C4 (amended) at a concrete entry. -/
theorem C4_witness :
    ("c.md", 5) ∈ watched_elements [".pdf"] ∅ (fun _ => 5) ["c.md"] ↔
      "c.md" ∈ ["c.md"] ∧
        (([".pdf"]).any fun e => endswith "c.md" e) = false ∧
        "c.md" ∉ (∅ : Finset String) ∧ (5 : Int) = 5 :=
  C4_enumerator_decision [".pdf"] ∅ (fun _ => 5) ["c.md"] "c.md" 5

/-- C5 counterexample: with `pandoc` on the path and no forwarded pandoc
options, the program exits via Python's bare `exit()`, i.e. with
process exit status 0 — NOT with a non-zero exit status as the claim
states. -/
theorem C5_counterexample :
    exitsNonzero (main_model true "usage" ".pdf,.tex,doc,bin,common" []
      ["a.md"] (fun _ => 0)) = false :=
  rfl

/-- C5 (amended): when the forwarded pandoc command-line portion is
empty, the program prints the complaint and the usage/help text,
performs no filesystem-watch setup (no `Started` state is reached, so no
snapshot is taken and no observer scheduled), and terminates early via
the exit mechanism — with exit status 0, since `exit()` is called with
no argument. -/
theorem C5_empty_options_exit (helpText exclusionsArg : String)
    (rest listing : List String) (stat : String → Int)
    (h : String.intercalate " " rest = "") :
    main_model true helpText exclusionsArg rest listing stat =
      Except.error ⟨["pandoc options must be provided!\n", helpText], 0⟩ := by
  simp [main_model, setup_config, h]

/-- Witness for C5 (amended): no extra CLI arguments at all. -/
theorem C5_witness :
    main_model true "usage" ".pdf,.tex,doc,bin,common" [] ["a.md"]
        (fun _ => 0) =
      Except.error ⟨["pandoc options must be provided!\n", "usage"], 0⟩ :=
  C5_empty_options_exit "usage" ".pdf,.tex,doc,bin,common" [] ["a.md"]
    (fun _ => 0) rfl

/-- C6 counterexample: `Configuration.watched_elements` has no
try/except around `os.stat`, so a failing metadata query on `"a.txt"`
aborts the whole enumeration with the error — it does NOT skip the
offending entry and return the snapshot `[("b.txt", 7)]` of the
remaining entries. -/
theorem C6_counterexample :
    watched_elements_err [] ∅
        (fun p => if p = "a.txt" then Except.error 13 else Except.ok 7)
        ["a.txt", "b.txt"] = Except.error 13 ∧
      watched_elements_err [] ∅
        (fun p => if p = "a.txt" then Except.error 13 else Except.ok 7)
        ["a.txt", "b.txt"] ≠ Except.ok [("b.txt", 7)] := by
  refine ⟨rfl, ?_⟩
  intro h
  rw [show watched_elements_err [] ∅
      (fun p => if p = "a.txt" then Except.error 13 else Except.ok 7)
      ["a.txt", "b.txt"] = Except.error 13 from rfl] at h
  exact Except.noConfusion h

/-- C6 (amended): when the metadata query fails on some non-excluded
entry of the listing, the enumeration pass aborts with the error: no
snapshot (not even of the remaining entries) is produced. -/
theorem C6_stat_error_aborts (exts : List String) (folders : Finset String)
    (stat : String → Except Nat Int) (listing : List String)
    (h : ∃ p ∈ listing, (exts.any fun e => endswith p e) = false ∧
        p ∉ folders ∧ ∃ err, stat p = Except.error err) :
    (watched_elements_err exts folders stat listing).toOption = none :=
  watched_elements_err_error h

/-- Witness for C6 (amended) at the concrete failing listing. -/
theorem C6_witness :
    (watched_elements_err [] ∅
        (fun p => if p = "a.txt" then Except.error 13 else Except.ok 7)
        ["a.txt", "b.txt"]).toOption = none :=
  C6_stat_error_aborts [] ∅
    (fun p => if p = "a.txt" then Except.error 13 else Except.ok 7)
    ["a.txt", "b.txt"] ⟨"a.txt", by decide, by decide, by decide, 13, rfl⟩

/-- C7: when a qualifying change fired, a failing external command is
recovered locally: the combined captured output is printed after
`Error:`, the handler still returns normally with the held snapshot
updated to the fresh snapshot and exactly one invocation; on a zero exit
the success acknowledgment `No error found` is printed instead. -/
theorem C7_failure_recovered (old new : List Entry) (command out : String)
    (run : String → Except String String)
    (hq : ∃ p ∈ new, ∃ b ∈ old, p.1 = b.1 ∧ b.2 < p.2) :
    (run command = Except.error out →
      (on_modified old new command run).held = new ∧
      (on_modified old new command run).recompiles = 1 ∧
      ("Error:\n" ++ out) ∈ (on_modified old new command run).prints) ∧
    (run command = Except.ok out →
      "No error found" ∈ (on_modified old new command run).prints) := by
  obtain ⟨q, _, heq⟩ := on_modified_some hq
  rw [heq]
  constructor
  · intro hrun
    refine ⟨rfl, rfl, ?_⟩
    simp [recompile, hrun]
  · intro hrun
    simp [recompile, hrun]

/-- Witness for C7: one failing run and one succeeding run. -/
theorem C7_witness :
    ((on_modified [("a.md", 100)] [("a.md", 200)] "pandoc x"
        (fun _ => Except.error "boom")).held = [("a.md", 200)] ∧
      (on_modified [("a.md", 100)] [("a.md", 200)] "pandoc x"
        (fun _ => Except.error "boom")).recompiles = 1 ∧
      ("Error:\n" ++ "boom") ∈ (on_modified [("a.md", 100)] [("a.md", 200)]
        "pandoc x" (fun _ => Except.error "boom")).prints) ∧
    "No error found" ∈ (on_modified [("a.md", 100)] [("a.md", 200)]
        "pandoc x" (fun _ => Except.ok "done")).prints :=
  ⟨(C7_failure_recovered [("a.md", 100)] [("a.md", 200)] "pandoc x" "boom"
      (fun _ => Except.error "boom") (by decide)).1 rfl,
    (C7_failure_recovered [("a.md", 100)] [("a.md", 200)] "pandoc x" "done"
      (fun _ => Except.ok "done") (by decide)).2 rfl⟩

/-- C8: over any sequence of notifications in which only excluded
entries (filtered out by extension suffix or literal name match) change
their timestamps, no recompilation is ever triggered and the held
snapshot never changes — because every snapshot contains only entries
that survive exclusion filtering. -/
theorem C8_excluded_never_triggers (exts : List String)
    (folders : Finset String) (listing : List String) (command : String)
    (run : String → Except String String) (stat0 : String → Int)
    (stats : List (String → Int))
    (h : ∀ stat ∈ stats, ∀ p ∈ listing,
        (exts.any fun e => endswith p e) = false → p ∉ folders →
        stat p = stat0 p) :
    process_events exts folders listing command run stats
        (watched_elements exts folders stat0 listing) =
      (0, watched_elements exts folders stat0 listing) :=
  process_events_no_change h

/-- Witness for C8: only the excluded `b.pdf` advances; zero
recompilations across the notification sequence. -/
theorem C8_witness :
    process_events [".pdf"] ∅ ["a.md", "b.pdf"] "pandoc x"
        (fun _ => Except.ok "")
        [fun p => if p = "b.pdf" then 300 else 100]
        (watched_elements [".pdf"] ∅ (fun _ => 100) ["a.md", "b.pdf"]) =
      (0, watched_elements [".pdf"] ∅ (fun _ => 100) ["a.md", "b.pdf"]) :=
  C8_excluded_never_triggers [".pdf"] ∅ ["a.md", "b.pdf"] "pandoc x"
    (fun _ => Except.ok "") (fun _ => 100)
    [fun p => if p = "b.pdf" then 300 else 100] (by decide)

/-- C9: with a fixed directory listing and fixed modification times (the
`stat` oracles of the two calls agree on every listed entry), two calls
of the enumerator yield identical snapshots, also as sets of
(name, time) pairs. -/
theorem C9_enumeration_idempotent (exts : List String)
    (folders : Finset String) (stat1 stat2 : String → Int)
    (listing : List String) (h : ∀ p ∈ listing, stat1 p = stat2 p) :
    watched_elements exts folders stat1 listing =
        watched_elements exts folders stat2 listing ∧
      (watched_elements exts folders stat1 listing).toFinset =
        (watched_elements exts folders stat2 listing).toFinset := by
  have he : watched_elements exts folders stat1 listing =
      watched_elements exts folders stat2 listing :=
    watched_elements_congr fun p hp _ _ => h p hp
  exact ⟨he, by rw [he]⟩

/-- Witness for C9 with two syntactically different but agreeing stat
oracles. -/
theorem C9_witness :
    watched_elements [".pdf"] ∅ (fun _ => 5) ["a.md"] =
        watched_elements [".pdf"] ∅ (fun _ => 2 + 3) ["a.md"] ∧
      (watched_elements [".pdf"] ∅ (fun _ => 5) ["a.md"]).toFinset =
        (watched_elements [".pdf"] ∅ (fun _ => 2 + 3) ["a.md"]).toFinset :=
  C9_enumeration_idempotent [".pdf"] ∅ (fun _ => 5) (fun _ => 2 + 3)
    ["a.md"] (by decide)

/-- C10: when some previously-tracked entry name no longer appears in
the fresh snapshot (the entry was deleted) and no entry common to both
snapshots advanced, `on_modified` triggers no recompilation, prints
nothing and keeps the old held snapshot: deletion is never itself
detected as a change. -/
theorem C10_deletion_invisible (old new : List Entry) (command : String)
    (run : String → Except String String)
    (_hdel : ∃ b ∈ old, ∀ p ∈ new, p.1 ≠ b.1)
    (h : ∀ p ∈ new, ∀ b ∈ old, p.1 = b.1 → p.2 ≤ b.2) :
    (on_modified old new command run).recompiles = 0 ∧
      (on_modified old new command run).held = old ∧
      (on_modified old new command run).prints = [] := by
  rw [on_modified_none h]
  exact ⟨rfl, rfl, rfl⟩

/-- Witness for C10: `b.md` disappears, nothing fires, snapshot kept. -/
theorem C10_witness :
    (on_modified [("a.md", 100), ("b.md", 100)] [("a.md", 100)] "pandoc x"
        (fun _ => Except.ok "")).recompiles = 0 ∧
      (on_modified [("a.md", 100), ("b.md", 100)] [("a.md", 100)]
        "pandoc x" (fun _ => Except.ok "")).held =
        [("a.md", 100), ("b.md", 100)] ∧
      (on_modified [("a.md", 100), ("b.md", 100)] [("a.md", 100)]
        "pandoc x" (fun _ => Except.ok "")).prints = [] :=
  C10_deletion_invisible [("a.md", 100), ("b.md", 100)] [("a.md", 100)]
    "pandoc x" (fun _ => Except.ok "") (by decide) (by decide)

end PandocWatch
